import Mathlib

/-!
Verification of the `prometheus_query` module (`plugins/modules/query.py`).

The module issues one HTTP GET per query against `{prometheus_url}/api/v1/query`
with parameters `query` and `time`, extracts `data.result[0].value[1]` from the
JSON response, converts it with `float()`, and accumulates a dict from sanitized
query strings to values.  The network is modelled as an oracle mapping each
request to an outcome; Python exceptions become explicit error values; Python
`float` values are modelled as exact decimal pairs (no claim depends on
rounding, only on which sample was parsed).
-/

namespace PromQuery

/-- An entry of the JSON `data.result` array.  The code reads only the `value`
field, a `[timestamp, value]` pair; `value = none` models a JSON object with no
`value` key (indexing it raises `KeyError`).  The pair is kept as the list of
its string-rendered elements, of which only index 1 is ever read. -/
structure ResultEntry where
  value : Option (List String)
deriving Repr, DecidableEq

/-- The parsed JSON body of a response.  `dataPresent`/`resultPresent` record
whether the `data` key and the nested `result` key exist; the code reads them
with `data.get('data', {}).get('result', [])`, so a missing key yields the
empty list rather than an error. -/
structure ResponseBody where
  dataPresent : Bool
  resultPresent : Bool
  result : List ResultEntry
deriving Repr, DecidableEq

/-- The effective value of `data.get('data', {}).get('result', [])`. -/
def ResponseBody.effectiveResult (b : ResponseBody) : List ResultEntry :=
  if b.dataPresent ∧ b.resultPresent then b.result else []

/-- Outcome of one `requests.get` call, as seen by the module: either the call
itself raised a `requests.RequestException` (connection error, timeout, ...),
or a response arrived with a status code and a body (`none` when the body is
not valid JSON, in which case `response.json()` raises). -/
inductive HttpOutcome where
  | transportError (msg : String)
  | response (status : Nat) (body : Option ResponseBody)
deriving Repr, DecidableEq

/-- The HTTP request the module builds: URL with the fixed API suffix, and the
`query` and `time` parameters. -/
structure Request where
  url : String
  query : String
  time : Int
deriving Repr, DecidableEq

/-- A network oracle: what the server (or the transport layer) does for each
request issued during one invocation. -/
def Server : Type := Request → HttpOutcome

/-- The Python exceptions the module can raise while processing one query. -/
inductive PyError where
  | requestException (msg : String)
  | jsonDecodeError
  | keyError (k : String)
  | indexError
  | valueError (s : String)
deriving Repr, DecidableEq

/-- `str(e)` for each modelled exception, as passed to `fail_json(msg=...)`. -/
def PyError.message : PyError → String
  | .requestException m => m
  | .jsonDecodeError => "Expecting value: line 1 column 1 (char 0)"
  | .keyError k => "\x27" ++ k ++ "\x27"
  | .indexError => "list index out of range"
  | .valueError s => "could not convert string to float: \x27" ++ s ++ "\x27"

/-- `PROMETHEUS_QUERY_API = '/api/v1/query'`. -/
def PROMETHEUS_QUERY_API : String := "/api/v1/query"

/-- Numeric value of a list of decimal digit characters. -/
def digitsVal (cs : List Char) : Nat :=
  cs.foldl (fun a c => a * 10 + (c.toNat - 48)) 0

/-- An exact model of a finite Python float: the value `mantissa / 10 ^ scale`.
The module never computes with the fetched value — it only stores it — so an
exact decimal pair stands in for the IEEE double `float()` would produce; no
claim below depends on rounding, only on which value was parsed and on
zeroness. -/
structure PyFloat where
  mantissa : Int
  scale : Nat
deriving Repr, DecidableEq

/-- Whether a `PyFloat` denotes the value zero: `mantissa / 10 ^ scale = 0`
exactly when the mantissa is zero.  Python's only falsy floats are `0.0` and
`-0.0`, both of which this model renders with a zero mantissa. -/
def PyFloat.isZero (f : PyFloat) : Bool :=
  f.mantissa == 0

/-- Python's `str.strip()` default whitespace removal, used by `float()`. -/
def pyStrip (cs : List Char) : List Char :=
  ((cs.dropWhile Char.isWhitespace).reverse.dropWhile Char.isWhitespace).reverse

/-- Model of Python's `float()` builtin on the string-encoded samples the
server returns: optional surrounding whitespace, an optional sign, a decimal
mantissa with at least one digit, and an optional integer exponent.  Returns
`none` where `float()` raises `ValueError`. -/
def pyFloat (s : String) : Option PyFloat :=
  let cs := pyStrip s.data
  let (neg, cs1) : Bool × List Char :=
    match cs with
    | '-' :: r => (true, r)
    | '+' :: r => (false, r)
    | r => (false, r)
  let ip := cs1.takeWhile (·.isDigit)
  let cs2 := cs1.dropWhile (·.isDigit)
  let (fp, cs3) : List Char × List Char :=
    match cs2 with
    | '.' :: r => (r.takeWhile (·.isDigit), r.dropWhile (·.isDigit))
    | r => ([], r)
  if ip.isEmpty ∧ fp.isEmpty then none
  else
    let m : Int := if neg then -(digitsVal (ip ++ fp) : Int) else (digitsVal (ip ++ fp) : Int)
    match cs3 with
    | [] => some ⟨m, fp.length⟩
    | e :: r =>
      if e = 'e' ∨ e = 'E' then
        let (eneg, r1) : Bool × List Char :=
          match r with
          | '-' :: r2 => (true, r2)
          | '+' :: r2 => (false, r2)
          | r2 => (false, r2)
        if r1.isEmpty ∨ ¬ (r1.all (·.isDigit)) then none
        else if eneg then some ⟨m, fp.length + digitsVal r1⟩
        else some ⟨m * (10 : Int) ^ digitsVal r1, fp.length⟩
      else none

/-- Python `str.replace` with a single-character pattern and a
single-character replacement: every occurrence of `old` becomes `new`. -/
def pyReplaceChar (s : String) (old new : Char) : String :=
  ⟨s.data.map (fun c => if c = old then new else c)⟩

/-- `sanitize_query`: `query.replace(":", "_").replace(".", "_")`. -/
def sanitize_query (query : String) : String :=
  pyReplaceChar (pyReplaceChar query ':' '_') '.' '_'

/-- `response.raise_for_status()` raises `requests.HTTPError` exactly for
status codes in `[400, 600)`. -/
def raiseForStatusFails (status : Nat) : Bool :=
  decide (400 ≤ status ∧ status < 600)

/-- The message of the `HTTPError` built by `raise_for_status` (client error
for 4xx, server error for 5xx). -/
def httpErrorMsg (status : Nat) (url : String) : String :=
  if status < 500 then toString status ++ " Client Error for url: " ++ url
  else toString status ++ " Server Error for url: " ++ url

/-- The request `fetch_latest_metric_value` issues:
`requests.get(f"{prometheus_url}{PROMETHEUS_QUERY_API}", params=params)` with
`params = {'query': query, 'time': end_time}`. -/
def mkRequest (prometheus_url query : String) (end_time : Int) : Request :=
  { url := prometheus_url ++ PROMETHEUS_QUERY_API, query := query, time := end_time }

/-- The part of `fetch_latest_metric_value` after `requests.get`: check the
status, parse JSON, read `data.get('data', {}).get('result', [])`, and if it
is non-empty return `float(metric_data[0]['value'][1])`, else `None`. -/
def processOutcome (url : String) : HttpOutcome → Except PyError (Option PyFloat)
  | .transportError msg => .error (.requestException msg)
  | .response status body =>
    if raiseForStatusFails status then
      .error (.requestException (httpErrorMsg status url))
    else
      match body with
      | none => .error .jsonDecodeError
      | some b =>
        match b.effectiveResult with
        | [] => .ok none
        | entry :: _ =>
          match entry.value with
          | none => .error (.keyError "value")
          | some vs =>
            match vs[1]? with
            | none => .error .indexError
            | some s =>
              match pyFloat s with
              | none => .error (.valueError s)
              | some x => .ok (some x)

/-- `fetch_latest_metric_value(query, end_time, prometheus_url)`: build the
request, send it, process the outcome.  Also returns the request issued, so
batch-level properties about the wire traffic can be stated. -/
def fetch_latest_metric_value (server : Server) (query : String) (end_time : Int)
    (prometheus_url : String) : Request × Except PyError (Option PyFloat) :=
  let req := mkRequest prometheus_url query end_time
  (req, processOutcome req.url (server req))

/-- The "no data" sentinel string used in `main`. -/
def NO_DATA_MSG : String := "No data available for the specified time range."

/-- A value of the `metrics_data` dict: a float or the sentinel string. -/
inductive MetricValue where
  | num (x : PyFloat)
  | msg (s : String)
deriving Repr, DecidableEq

/-- The body of one loop iteration of `main` up to the dict assignment: fetch
the value, then pick `key = sanitize_query(query) if latest_value is not None
else query` and the value `latest_value` or the sentinel. -/
def queryEntry (server : Server) (prometheus_url : String) (end_time : Int)
    (query : String) : Except PyError (String × MetricValue) :=
  match (fetch_latest_metric_value server query end_time prometheus_url).2 with
  | .error e => .error e
  | .ok latest =>
    .ok (if latest.isSome then sanitize_query query else query,
         match latest with
         | some x => .num x
         | none => .msg NO_DATA_MSG)

/-- Python dict assignment `d[k] = v`: update in place if `k` is present
(keeping its position), else append. -/
def dictInsert (d : List (String × MetricValue)) (k : String) (v : MetricValue) :
    List (String × MetricValue) :=
  if d.any (fun p => p.1 = k) then
    d.map (fun p => if p.1 = k then (k, v) else p)
  else d ++ [(k, v)]

/-- What `main` reports to the host runtime: `exit_json(changed=False,
metrics_data=...)` on success, or `fail_json(msg=...)` at the first error. -/
inductive ModuleResult where
  | exitJson (changed : Bool) (metrics_data : List (String × MetricValue))
  | failJson (msg : String)
deriving Repr, DecidableEq

/-- The query loop of `main`: iterate the queries in order, accumulate into
`metrics_data` with dict assignment, and stop with `fail_json(msg=str(e))` at
the first exception (`fail_json` exits the module, so later queries are never
processed).  As a total function on explicit error values this also embeds the
fact that the broad `except Exception` handler lets no exception escape the
loop: every run ends in `exit_json` or `fail_json`. -/
def runQueries (server : Server) (prometheus_url : String) (end_time : Int) :
    List String → List (String × MetricValue) → ModuleResult
  | [], acc => .exitJson false acc
  | q :: rest, acc =>
    match queryEntry server prometheus_url end_time q with
    | .error e => .failJson e.message
    | .ok (k, v) => runQueries server prometheus_url end_time rest (dictInsert acc k v)

/-- The HTTP requests the loop issues, in order: one per query up to and
including the query whose processing raises (the failing request was issued
before its exception surfaced); queries after the first failure are never
requested because `fail_json` exits the module. -/
def requestTrace (server : Server) (prometheus_url : String) (end_time : Int) :
    List String → List Request
  | [] => []
  | q :: rest =>
    match queryEntry server prometheus_url end_time q with
    | .error _ => [mkRequest prometheus_url q end_time]
    | .ok _ => mkRequest prometheus_url q end_time ::
        requestTrace server prometheus_url end_time rest

/-- `main`: take the wall-clock time once (`current_time = int(time.time())`,
a parameter of the model, computed before the loop), then run every query with
that same `end_time` starting from an empty `metrics_data` dict.  Returns the
request trace together with what is reported to the host runtime. -/
def main (server : Server) (prometheus_url : String) (current_time : Int)
    (queries : List String) : List Request × ModuleResult :=
  (requestTrace server prometheus_url current_time queries,
   runQueries server prometheus_url current_time queries [])

/-- The entries a fully successful run accumulates, one per query in order. -/
def okEntries (server : Server) (prometheus_url : String) (end_time : Int)
    (qs : List String) : List (String × MetricValue) :=
  qs.filterMap (fun q => (queryEntry server prometheus_url end_time q).toOption)

/-! ### Concrete fixtures

Small closed servers used to evaluate the definitions on concrete inputs. -/

/-- A server that always answers 200 with one result entry whose sample pair
is `["1700", "4.2"]`. -/
def srvFound : Server :=
  fun _ => .response 200 (some ⟨true, true, [⟨some ["1700", "4.2"]⟩]⟩)

/-- A server that always answers 200 with an empty `data.result` array. -/
def srvEmpty : Server :=
  fun _ => .response 200 (some ⟨true, true, []⟩)

/-- A server that answers 200 with a JSON body that has no `data` field at
all (so no `result` array either). -/
def srvNoDataField : Server :=
  fun _ => .response 200 (some ⟨false, false, []⟩)

/-- A server that answers 200 with one result entry lacking the `value` key. -/
def srvNoValueKey : Server :=
  fun _ => .response 200 (some ⟨true, true, [⟨none⟩]⟩)

/-- A server that answers 304 Not Modified with a JSON body: `requests` does
not auto-follow 304 and `raise_for_status` raises only for `[400, 600)`. -/
def srv304 : Server :=
  fun _ => .response 304 (some ⟨true, true, []⟩)

/-- A transport layer in which the query `down:metric` fails with a
connection error while every other query succeeds with sample `"1"`. -/
def srvFlaky : Server := fun req =>
  if req.query = "down:metric" then .transportError "Connection refused"
  else .response 200 (some ⟨true, true, [⟨some ["1700", "1"]⟩]⟩)

/-- A server whose one result entry carries the sample string `"0"`. -/
def srvZero : Server :=
  fun _ => .response 200 (some ⟨true, true, [⟨some ["1700", "0"]⟩]⟩)

/-- A server that answers the query `up` with sample `"1"` and every other
query with a sample string `float()` cannot parse. -/
def srvMixed : Server := fun req =>
  if req.query = "up" then .response 200 (some ⟨true, true, [⟨some ["1700", "1"]⟩]⟩)
  else .response 200 (some ⟨true, true, [⟨some ["1700", "not-a-number"]⟩]⟩)

/-- The character-level action of `sanitize_query` on one character. -/
def sanChar (c : Char) : Char :=
  if c = ':' ∨ c = '.' then '_' else c

/-! ### Helper lemmas -/

theorem sanChar_comp (c : Char) :
    (if (if c = ':' then '_' else c) = '.' then '_' else if c = ':' then '_' else c) =
      sanChar c := by
  by_cases h1 : c = ':'
  · subst h1; decide
  · by_cases h2 : c = '.'
    · subst h2; decide
    · simp [sanChar, h1, h2]

/-- `sanitize_query` acts characterwise as `sanChar`. -/
theorem sanitize_query_data (q : String) :
    (sanitize_query q).data = q.data.map sanChar := by
  calc (sanitize_query q).data
      = (q.data.map fun c => if c = ':' then '_' else c).map
          (fun c => if c = '.' then '_' else c) := rfl
    _ = q.data.map (fun c =>
          if (if c = ':' then '_' else c) = '.' then '_' else if c = ':' then '_' else c) := by
        rw [List.map_map]; rfl
    _ = q.data.map sanChar := by
        exact List.map_congr_left (fun c _ => sanChar_comp c)

theorem sanChar_idem (c : Char) : sanChar (sanChar c) = sanChar c := by
  by_cases h1 : c = ':'
  · subst h1; decide
  · by_cases h2 : c = '.'
    · subst h2; decide
    · simp [sanChar, h1, h2]

/-- The key of a successfully produced entry is the sanitized query (found
case, numeric value) or the raw query (no-data case, sentinel value). -/
theorem queryEntry_key_shape (server : Server) (u : String) (t : Int) (q k : String)
    (v : MetricValue) (h : queryEntry server u t q = .ok (k, v)) :
    (k = sanitize_query q ∧ ∃ x, v = .num x) ∨ (k = q ∧ v = .msg NO_DATA_MSG) := by
  unfold queryEntry at h
  cases hf : (fetch_latest_metric_value server q t u).2 with
  | error e => rw [hf] at h; exact absurd h (by simp)
  | ok latest =>
    rw [hf] at h
    cases latest with
    | none =>
      simp only [Option.isSome_none, Bool.false_eq_true, if_false, Except.ok.injEq,
        Prod.mk.injEq] at h
      exact .inr ⟨h.1.symm, h.2.symm⟩
    | some x =>
      simp only [Option.isSome_some, if_true, Except.ok.injEq, Prod.mk.injEq] at h
      exact .inl ⟨h.1.symm, x, h.2.symm⟩

/-- Every request the loop issues carries the shared `end_time`. -/
theorem requestTrace_time (server : Server) (u : String) (t : Int) :
    ∀ (qs : List String), ∀ req ∈ requestTrace server u t qs, req.time = t := by
  intro qs
  induction qs with
  | nil => intro req h; simp [requestTrace] at h
  | cons q rest ih =>
    intro req h
    cases hq : queryEntry server u t q with
    | error e =>
      simp only [requestTrace, hq, List.mem_singleton] at h
      subst h; rfl
    | ok en =>
      simp only [requestTrace, hq, List.mem_cons] at h
      rcases h with rfl | h
      · rfl
      · exact ih req h

/-- A run that reaches `exit_json` processed every query without an
exception. -/
theorem runQueries_exit_all_ok (server : Server) (u : String) (t : Int) :
    ∀ (qs : List String) (acc : List (String × MetricValue)) (c : Bool)
      (d : List (String × MetricValue)),
      runQueries server u t qs acc = .exitJson c d →
      ∀ q ∈ qs, ∃ en, queryEntry server u t q = .ok en := by
  intro qs
  induction qs with
  | nil => intro acc c d _ q hq; simp at hq
  | cons p rest ih =>
    intro acc c d h q hq
    cases hp : queryEntry server u t p with
    | error e => rw [runQueries, hp] at h; exact absurd h (by simp)
    | ok en =>
      obtain ⟨k, v⟩ := en
      rw [runQueries, hp] at h
      rcases List.mem_cons.mp hq with rfl | hq
      · exact ⟨(k, v), hp⟩
      · exact ih (dictInsert acc k v) c d h q hq

/-- Aborting at the first failing query: if every query before `q` succeeds
and `q` raises `e`, the loop reports `fail_json(msg=str(e))` whatever the
accumulated dict was. -/
theorem runQueries_first_error (server : Server) (u : String) (t : Int)
    (pre : List String) (q : String) (post : List String) (e : PyError)
    (hpre : ∀ p ∈ pre, ∃ en, queryEntry server u t p = .ok en)
    (herr : queryEntry server u t q = .error e) :
    ∀ acc, runQueries server u t (pre ++ q :: post) acc = .failJson e.message := by
  induction pre with
  | nil => intro acc; rw [List.nil_append, runQueries, herr]
  | cons p pre' ih =>
    intro acc
    obtain ⟨⟨k, v⟩, hp⟩ := hpre p (by simp)
    rw [List.cons_append, runQueries, hp]
    exact ih (fun r hr => hpre r (by simp [hr])) (dictInsert acc k v)

/-- `okEntries` pairs each query with the entry its processing produced. -/
theorem okEntries_forall₂ (server : Server) (u : String) (t : Int) :
    ∀ (qs : List String),
      (∀ q ∈ qs, ∃ en, queryEntry server u t q = .ok en) →
      List.Forall₂ (fun q en => queryEntry server u t q = .ok en) qs
        (okEntries server u t qs) := by
  intro qs
  induction qs with
  | nil => intro _; simp [okEntries]
  | cons q rest ih =>
    intro hall
    obtain ⟨en, hq⟩ := hall q (by simp)
    have hoe : okEntries server u t (q :: rest) = en :: okEntries server u t rest := by
      simp [okEntries, List.filterMap_cons, hq, Except.toOption]
    rw [hoe]
    exact .cons hq (ih (fun r hr => hall r (by simp [hr])))

theorem forall₂_exists_left {α β : Type} {R : α → β → Prop} :
    ∀ {l₁ : List α} {l₂ : List β}, List.Forall₂ R l₁ l₂ →
      ∀ b ∈ l₂, ∃ a ∈ l₁, R a b := by
  intro l₁ l₂ h
  induction h with
  | nil => intro b hb; simp at hb
  | cons hab _ ih =>
    intro b hb
    rcases List.mem_cons.mp hb with rfl | hb
    · exact ⟨_, by simp, hab⟩
    · obtain ⟨a, ha, hr⟩ := ih b hb
      exact ⟨a, by simp [ha], hr⟩

/-- The pairwise sanitization conditions of the spec make all accumulated
keys distinct, whichever of the two key shapes each query ends up with. -/
theorem okEntries_keys_nodup (server : Server) (u : String) (t : Int) :
    ∀ (qs : List String) (es : List (String × MetricValue)),
      List.Forall₂ (fun q en => queryEntry server u t q = .ok en) qs es →
      qs.Pairwise (fun a b => sanitize_query a ≠ sanitize_query b ∧
        a ≠ sanitize_query b ∧ sanitize_query a ≠ b) →
      (es.map Prod.fst).Nodup := by
  intro qs es h2 hp
  induction h2 with
  | nil => simp
  | @cons q en qs' es' hq h2' ih =>
    rw [List.pairwise_cons] at hp
    rw [List.map_cons, List.nodup_cons]
    refine ⟨?_, ih hp.2⟩
    intro hmem
    rw [List.mem_map] at hmem
    obtain ⟨en', hen', hkey⟩ := hmem
    obtain ⟨q', hq'mem, hq'⟩ := forall₂_exists_left h2' en' hen'
    have hP := hp.1 q' hq'mem
    obtain ⟨en1, en2⟩ := en
    obtain ⟨en1', en2'⟩ := en'
    have hs1 := queryEntry_key_shape server u t q en1 en2 hq
    have hs2 := queryEntry_key_shape server u t q' en1' en2' hq'
    simp only at hkey
    have hne : q ≠ q' := fun hqq => hP.1 (by rw [hqq])
    rcases hs1 with ⟨hk1, -⟩ | ⟨hk1, -⟩ <;> rcases hs2 with ⟨hk2, -⟩ | ⟨hk2, -⟩ <;>
      rw [hk1, hk2] at hkey
    · exact hP.1 hkey.symm
    · exact hP.2.2 hkey.symm
    · exact hP.2.1 hkey.symm
    · exact hne hkey.symm

/-- A run in which every query succeeds and all keys are fresh appends its
entries to the accumulator in input order. -/
theorem runQueries_all_ok (server : Server) (u : String) (t : Int) :
    ∀ (qs : List String),
      (∀ q ∈ qs, ∃ en, queryEntry server u t q = .ok en) →
      ∀ acc, ((acc ++ okEntries server u t qs).map Prod.fst).Nodup →
        runQueries server u t qs acc = .exitJson false (acc ++ okEntries server u t qs) := by
  intro qs
  induction qs with
  | nil => intro _ acc _; simp [runQueries, okEntries]
  | cons q rest ih =>
    intro hall acc hnd
    obtain ⟨⟨k, v⟩, hq⟩ := hall q (by simp)
    have hoe : okEntries server u t (q :: rest) = (k, v) :: okEntries server u t rest := by
      simp [okEntries, List.filterMap_cons, hq, Except.toOption]
    rw [hoe] at hnd ⊢
    have hknotin : k ∉ acc.map Prod.fst := by
      rw [List.map_append] at hnd
      have hdis := List.disjoint_of_nodup_append hnd
      intro hk
      exact hdis hk (by simp)
    have hins : dictInsert acc k v = acc ++ [(k, v)] := by
      unfold dictInsert
      rw [if_neg]
      simp only [List.any_eq_true, decide_eq_true_eq, Prod.exists, not_exists, not_and]
      intro a b hab hk
      exact hknotin (List.mem_map.mpr ⟨(a, b), hab, hk⟩)
    have hnd' : (((acc ++ [(k, v)]) ++ okEntries server u t rest).map Prod.fst).Nodup := by
      rw [List.append_assoc]
      simpa using hnd
    rw [runQueries, hq]
    show runQueries server u t rest (dictInsert acc k v) = _
    rw [hins, ih (fun r hr => hall r (by simp [hr])) (acc ++ [(k, v)]) hnd', List.append_assoc]
    rfl

/-- Processing a query whose response carries a non-empty result array with a
parsable sample yields the sanitized-key, numeric-value entry. -/
theorem queryEntry_found (server : Server) (url : String) (t : Int) (q : String)
    (status : Nat) (b : ResponseBody) (entry : ResultEntry) (rest : List ResultEntry)
    (vs : List String) (s : String) (x : PyFloat)
    (hresp : server (mkRequest url q t) = .response status (some b))
    (hok : raiseForStatusFails status = false)
    (hres : b.effectiveResult = entry :: rest)
    (hval : entry.value = some vs)
    (hs : vs[1]? = some s)
    (hx : pyFloat s = some x) :
    queryEntry server url t q = .ok (sanitize_query q, .num x) := by
  have hfetch : (fetch_latest_metric_value server q t url).2 = .ok (some x) := by
    simp only [fetch_latest_metric_value]
    rw [hresp]
    simp [processOutcome, hok, hres, hval, hs, hx]
  simp [queryEntry, hfetch]

/-- Processing a query whose response carries an empty result array yields the
raw-key, sentinel-string entry. -/
theorem queryEntry_nodata (server : Server) (url : String) (t : Int) (q : String)
    (status : Nat) (b : ResponseBody)
    (hresp : server (mkRequest url q t) = .response status (some b))
    (hok : raiseForStatusFails status = false)
    (hdata : b.dataPresent = true) (hresult : b.resultPresent = true)
    (hempty : b.result = []) :
    queryEntry server url t q = .ok (q, .msg NO_DATA_MSG) := by
  have hfetch : (fetch_latest_metric_value server q t url).2 = .ok none := by
    simp only [fetch_latest_metric_value]
    rw [hresp]
    simp [processOutcome, hok, ResponseBody.effectiveResult, hdata, hresult, hempty]
  simp [queryEntry, hfetch]

/-- A one-query batch whose query produces an entry returns exactly that
entry. -/
theorem runQueries_single (server : Server) (u : String) (t : Int) (q k : String)
    (v : MetricValue) (h : queryEntry server u t q = .ok (k, v)) :
    runQueries server u t [q] [] = .exitJson false [(k, v)] := by
  rw [runQueries, h]
  show runQueries server u t [] (dictInsert [] k v) = _
  rw [runQueries]
  simp [dictInsert]

/-! ### The claims -/

/-- C1: for every query for which the server's JSON response has a non-empty
`data.result` array, the entry added to the result mapping has key equal to
the sanitized query string and value equal to the `float()` conversion of the
second element (`value[1]`) of the first result entry's value pair. -/
theorem found_value_uses_sanitized_key (server : Server) (url : String) (t : Int)
    (q : String) (status : Nat) (b : ResponseBody) (entry : ResultEntry)
    (rest : List ResultEntry) (vs : List String) (s : String) (x : PyFloat)
    (hresp : server (mkRequest url q t) = .response status (some b))
    (hok : raiseForStatusFails status = false)
    (hres : b.effectiveResult = entry :: rest)
    (hval : entry.value = some vs)
    (hs : vs[1]? = some s)
    (hx : pyFloat s = some x) :
    queryEntry server url t q = .ok (sanitize_query q, .num x) ∧
    (main server url t [q]).2 = .exitJson false [(sanitize_query q, .num x)] := by
  have h := queryEntry_found server url t q status b entry rest vs s x
    hresp hok hres hval hs hx
  exact ⟨h, runQueries_single server url t q (sanitize_query q) (.num x) h⟩

theorem found_value_uses_sanitized_key_witness :
    srvFound (mkRequest "http://prom:9090" "node:cpu.rate" 1700) =
      .response 200 (some ⟨true, true, [⟨some ["1700", "4.2"]⟩]⟩) ∧
    pyFloat "4.2" = some ⟨42, 1⟩ ∧
    (queryEntry srvFound "http://prom:9090" 1700 "node:cpu.rate" =
      .ok (sanitize_query "node:cpu.rate", .num ⟨42, 1⟩) ∧
    (main srvFound "http://prom:9090" 1700 ["node:cpu.rate"]).2 =
      .exitJson false [(sanitize_query "node:cpu.rate", .num ⟨42, 1⟩)]) :=
  ⟨rfl, by decide,
    found_value_uses_sanitized_key srvFound "http://prom:9090" 1700 "node:cpu.rate" 200
      ⟨true, true, [⟨some ["1700", "4.2"]⟩]⟩ ⟨some ["1700", "4.2"]⟩ [] ["1700", "4.2"]
      "4.2" ⟨42, 1⟩ rfl (by decide) (by decide) rfl (by decide) (by decide)⟩

/-- C2: for every query for which the server's JSON response has an empty
`data.result` array, the entry added to the result mapping has key equal to
the original, unsanitized query string and value equal to the literal string
`"No data available for the specified time range."`; the entry is produced by
the success path (`Except.ok`), so the case is not reported as an error. -/
theorem empty_result_uses_raw_key_sentinel (server : Server) (url : String) (t : Int)
    (q : String) (status : Nat) (b : ResponseBody)
    (hresp : server (mkRequest url q t) = .response status (some b))
    (hok : raiseForStatusFails status = false)
    (hdata : b.dataPresent = true) (hresult : b.resultPresent = true)
    (hempty : b.result = []) :
    queryEntry server url t q = .ok (q, .msg NO_DATA_MSG) ∧
    (main server url t [q]).2 = .exitJson false [(q, .msg NO_DATA_MSG)] := by
  have h := queryEntry_nodata server url t q status b hresp hok hdata hresult hempty
  exact ⟨h, runQueries_single server url t q q (.msg NO_DATA_MSG) h⟩

theorem empty_result_uses_raw_key_sentinel_witness :
    srvEmpty (mkRequest "http://prom:9090" "node:cpu.rate" 1700) =
      .response 200 (some ⟨true, true, []⟩) ∧
    (queryEntry srvEmpty "http://prom:9090" 1700 "node:cpu.rate" =
      .ok ("node:cpu.rate", .msg NO_DATA_MSG) ∧
    (main srvEmpty "http://prom:9090" 1700 ["node:cpu.rate"]).2 =
      .exitJson false [("node:cpu.rate", .msg NO_DATA_MSG)]) :=
  ⟨rfl,
    empty_result_uses_raw_key_sentinel srvEmpty "http://prom:9090" 1700 "node:cpu.rate" 200
      ⟨true, true, []⟩ rfl (by decide) rfl rfl rfl⟩

/-- C3, counterexample: an HTTP-success response whose JSON body is missing
the `data` field — a field on the path `data.result[0].value[1]` — does NOT
raise a structural error: `data.get('data', {}).get('result', [])` defaults to
the empty list, so the module records the no-data sentinel and the batch
completes with `exit_json`. -/
theorem missing_data_field_is_no_data_not_error :
    srvNoDataField (mkRequest "http://prom:9090" "up" 1700) =
      .response 200 (some ⟨false, false, []⟩) ∧
    (main srvNoDataField "http://prom:9090" 1700 ["up"]).2 =
      .exitJson false [("up", .msg NO_DATA_MSG)] :=
  ⟨rfl, by decide⟩

/-- C3, amended: for an HTTP-success response whose result array is non-empty
but whose first entry is missing the `value` field (KeyError) or whose value
pair has no second element (IndexError), extraction raises a structural error
that is not caught in `fetch_latest_metric_value` and aborts the whole batch
through `fail_json`, exactly like a transport error — no partial results. -/
theorem malformed_first_entry_aborts_batch (server : Server) (url : String) (t : Int)
    (pre : List String) (q : String) (post : List String)
    (status : Nat) (b : ResponseBody) (entry : ResultEntry) (rest : List ResultEntry)
    (hresp : server (mkRequest url q t) = .response status (some b))
    (hok : raiseForStatusFails status = false)
    (hres : b.effectiveResult = entry :: rest)
    (hbad : entry.value = none ∨ ∃ vs, entry.value = some vs ∧ vs[1]? = none)
    (hpre : ∀ p ∈ pre, ∃ en, queryEntry server url t p = .ok en) :
    ∃ e, queryEntry server url t q = .error e ∧
      (e = .keyError "value" ∨ e = .indexError) ∧
      (main server url t (pre ++ q :: post)).2 = .failJson e.message := by
  have herr : ∃ e, (fetch_latest_metric_value server q t url).2 = .error e ∧
      (e = PyError.keyError "value" ∨ e = PyError.indexError) := by
    rcases hbad with hnone | ⟨vs, hvs, hidx⟩
    · refine ⟨.keyError "value", ?_, .inl rfl⟩
      simp only [fetch_latest_metric_value]
      rw [hresp]
      simp [processOutcome, hok, hres, hnone]
    · refine ⟨.indexError, ?_, .inr rfl⟩
      simp only [fetch_latest_metric_value]
      rw [hresp]
      simp [processOutcome, hok, hres, hvs, hidx]
  obtain ⟨e, hfe, hshape⟩ := herr
  have hqe : queryEntry server url t q = .error e := by simp [queryEntry, hfe]
  exact ⟨e, hqe, hshape, runQueries_first_error server url t pre q post e hpre hqe []⟩

theorem malformed_first_entry_aborts_batch_witness :
    srvNoValueKey (mkRequest "http://prom:9090" "up" 1700) =
      .response 200 (some ⟨true, true, [⟨none⟩]⟩) ∧
    ∃ e, queryEntry srvNoValueKey "http://prom:9090" 1700 "up" = .error e ∧
      (e = .keyError "value" ∨ e = .indexError) ∧
      (main srvNoValueKey "http://prom:9090" 1700 (([] : List String) ++ "up" :: [])).2 =
        .failJson e.message :=
  ⟨rfl, malformed_first_entry_aborts_batch srvNoValueKey "http://prom:9090" 1700 [] "up" []
    200 ⟨true, true, [⟨none⟩]⟩ ⟨none⟩ [] rfl (by decide) (by decide) (.inl rfl)
    (fun p hp => absurd hp (by simp))⟩

/-- C4, counterexample: a non-2xx HTTP status is not always a transport
error.  `raise_for_status` raises only for `[400, 600)`; a 304 response —
which `requests` returns to the caller without raising — flows on into body
parsing, and with a parseable empty-result body the invocation succeeds and
returns a full `metrics_data` mapping instead of reporting failure. -/
theorem status_304_not_fatal :
    srv304 (mkRequest "http://prom:9090" "up" 1700) =
      .response 304 (some ⟨true, true, []⟩) ∧
    raiseForStatusFails 304 = false ∧
    (main srv304 "http://prom:9090" 1700 ["up"]).2 =
      .exitJson false [("up", .msg NO_DATA_MSG)] :=
  ⟨rfl, by decide, by decide⟩

/-- C4, amended: if processing any one query of a batch raises a transport
error (connection error, timeout, or an HTTP status in the 4xx/5xx range —
the statuses `raise_for_status` raises for), after queries that processed
cleanly, the invocation reports failure with the error's message string and
returns no `metrics_data` mapping at all, regardless of whether other queries
in the batch succeeded or would have succeeded. -/
theorem transport_error_aborts_batch (server : Server) (url : String) (t : Int)
    (pre : List String) (q : String) (post : List String) (m : String)
    (hpre : ∀ p ∈ pre, ∃ en, queryEntry server url t p = .ok en)
    (herr : (fetch_latest_metric_value server q t url).2 = .error (.requestException m)) :
    (main server url t (pre ++ q :: post)).2 = .failJson m ∧
    ∀ (c : Bool) (md : List (String × MetricValue)),
      (main server url t (pre ++ q :: post)).2 ≠ .exitJson c md := by
  have hq : queryEntry server url t q = .error (.requestException m) := by
    simp [queryEntry, herr]
  have h : (main server url t (pre ++ q :: post)).2 =
      .failJson (PyError.message (.requestException m)) :=
    runQueries_first_error server url t pre q post (.requestException m) hpre hq []
  exact ⟨h, fun c md hcontra => ModuleResult.noConfusion (h.symm.trans hcontra)⟩

theorem transport_error_aborts_batch_witness :
    (∀ p ∈ (["up"] : List String), ∃ en,
      queryEntry srvFlaky "http://prom:9090" 1700 p = .ok en) ∧
    (fetch_latest_metric_value srvFlaky "down:metric" 1700 "http://prom:9090").2 =
      .error (.requestException "Connection refused") ∧
    ((main srvFlaky "http://prom:9090" 1700 (["up"] ++ "down:metric" :: ["node:cpu"])).2 =
      .failJson "Connection refused" ∧
    ∀ (c : Bool) (md : List (String × MetricValue)),
      (main srvFlaky "http://prom:9090" 1700 (["up"] ++ "down:metric" :: ["node:cpu"])).2 ≠
        .exitJson c md) := by
  have hpre : ∀ p ∈ (["up"] : List String), ∃ en,
      queryEntry srvFlaky "http://prom:9090" 1700 p = .ok en := by
    intro p hp
    rw [List.mem_singleton] at hp
    subst hp
    exact ⟨("up", .num ⟨1, 0⟩), rfl⟩
  exact ⟨hpre, rfl,
    transport_error_aborts_batch srvFlaky "http://prom:9090" 1700 ["up"] "down:metric"
      ["node:cpu"] "Connection refused" hpre rfl⟩

/-- C5: `sanitize_query` maps its input characterwise, replacing every `:`
and every `.` with `_` and leaving every other character unchanged in place.
In particular it is a pure, deterministic function of the string alone (it is
a plain function of its one argument in this model). -/
theorem sanitize_query_charwise (q : String) :
    (sanitize_query q).data =
      q.data.map (fun c => if c = ':' ∨ c = '.' then '_' else c) :=
  sanitize_query_data q

theorem sanitize_query_charwise_witness :
    (sanitize_query "rate(http:req.total[5m])").data =
      "rate(http:req.total[5m])".data.map
        (fun c => if c = ':' ∨ c = '.' then '_' else c) :=
  sanitize_query_charwise "rate(http:req.total[5m])"

/-- C6: for every non-empty batch in which no two queries sanitize to the
same key and no query equals another query's sanitized form, a successful
invocation returns a `metrics_data` mapping with exactly one entry per input
query, in input order (each entry keyed by its query's sanitized or raw
form). -/
theorem distinct_keys_one_entry_per_query (server : Server) (url : String) (t : Int)
    (qs : List String) (_hne : qs ≠ [])
    (hpair : qs.Pairwise (fun a b => sanitize_query a ≠ sanitize_query b ∧
      a ≠ sanitize_query b ∧ sanitize_query a ≠ b))
    (reqs : List Request) (md : List (String × MetricValue))
    (hrun : main server url t qs = (reqs, .exitJson false md)) :
    md.length = qs.length ∧
    List.Forall₂ (fun q en => (en : String × MetricValue).1 = sanitize_query q ∨ en.1 = q)
      qs md := by
  have hrq : runQueries server url t qs [] = .exitJson false md := congrArg Prod.snd hrun
  have hall := runQueries_exit_all_ok server url t qs [] false md hrq
  have h2 := okEntries_forall₂ server url t qs hall
  have hnd := okEntries_keys_nodup server url t qs (okEntries server url t qs) h2 hpair
  have hrun2 := runQueries_all_ok server url t qs hall [] (by simpa using hnd)
  have hmd : md = okEntries server url t qs := by
    rw [hrq] at hrun2
    simpa using hrun2
  constructor
  · rw [hmd]
    exact (List.Forall₂.length_eq h2).symm
  · rw [hmd]
    refine h2.imp (fun q en hqe => ?_)
    obtain ⟨k, v⟩ := en
    rcases queryEntry_key_shape server url t q k v hqe with ⟨hk, -⟩ | ⟨hk, -⟩
    · exact .inl hk
    · exact .inr hk

theorem distinct_keys_one_entry_per_query_witness :
    (["up", "node:cpu.rate"] : List String) ≠ [] ∧
    (["up", "node:cpu.rate"] : List String).Pairwise
      (fun a b => sanitize_query a ≠ sanitize_query b ∧
        a ≠ sanitize_query b ∧ sanitize_query a ≠ b) ∧
    main srvFound "http://prom:9090" 1700 ["up", "node:cpu.rate"] =
      ([mkRequest "http://prom:9090" "up" 1700,
        mkRequest "http://prom:9090" "node:cpu.rate" 1700],
       .exitJson false [("up", .num ⟨42, 1⟩), ("node_cpu_rate", .num ⟨42, 1⟩)]) ∧
    (([("up", MetricValue.num ⟨42, 1⟩), ("node_cpu_rate", MetricValue.num ⟨42, 1⟩)]).length =
      (["up", "node:cpu.rate"] : List String).length ∧
    List.Forall₂ (fun q en => (en : String × MetricValue).1 = sanitize_query q ∨ en.1 = q)
      ["up", "node:cpu.rate"]
      [("up", MetricValue.num ⟨42, 1⟩), ("node_cpu_rate", MetricValue.num ⟨42, 1⟩)]) := by
  have hpair : (["up", "node:cpu.rate"] : List String).Pairwise
      (fun a b => sanitize_query a ≠ sanitize_query b ∧
        a ≠ sanitize_query b ∧ sanitize_query a ≠ b) := by decide
  have hmain : main srvFound "http://prom:9090" 1700 ["up", "node:cpu.rate"] =
      ([mkRequest "http://prom:9090" "up" 1700,
        mkRequest "http://prom:9090" "node:cpu.rate" 1700],
       .exitJson false [("up", .num ⟨42, 1⟩), ("node_cpu_rate", .num ⟨42, 1⟩)]) := by decide
  exact ⟨by decide, hpair, hmain,
    distinct_keys_one_entry_per_query srvFound "http://prom:9090" 1700
      ["up", "node:cpu.rate"] (by decide) hpair _ _ hmain⟩

/-- C7: one evaluation timestamp, taken once at invocation start and passed
to the loop unchanged, is the `time` parameter of every HTTP request the
batch issues: all requests carry the same value. -/
theorem batch_time_consistency (server : Server) (url : String) (t : Int)
    (qs : List String) :
    ∀ req ∈ (main server url t qs).1, req.time = t :=
  fun req h => requestTrace_time server url t qs req h

theorem batch_time_consistency_witness :
    mkRequest "http://prom:9090" "node:cpu.rate" 1700 ∈
      (main srvFound "http://prom:9090" 1700 ["up", "node:cpu.rate"]).1 ∧
    (mkRequest "http://prom:9090" "node:cpu.rate" 1700).time = 1700 :=
  ⟨by decide,
    batch_time_consistency srvFound "http://prom:9090" 1700 ["up", "node:cpu.rate"]
      (mkRequest "http://prom:9090" "node:cpu.rate" 1700) (by decide)⟩

/-- C8: `sanitize_query` is idempotent — sanitizing twice equals sanitizing
once — and it is not injective: `node:cpu` and `node.cpu` are distinct
strings that sanitize to the same key. -/
theorem sanitize_idempotent_not_injective :
    (∀ q, sanitize_query (sanitize_query q) = sanitize_query q) ∧
    sanitize_query "node:cpu" = sanitize_query "node.cpu" ∧ "node:cpu" ≠ "node.cpu" := by
  refine ⟨fun q => ?_, by decide, by decide⟩
  apply String.ext
  rw [sanitize_query_data, sanitize_query_data, List.map_map]
  exact List.map_congr_left (fun c _ => sanChar_idem c)

/-- C9: a sample whose string encoding parses to the float `0.0` (a falsy
float) is treated as found, not absent: the branch tests `is not None`, not
truthiness, so the mapping entry uses the sanitized key and the numeric value
`0.0` — never the no-data sentinel string. -/
theorem zero_sample_is_found (server : Server) (url : String) (t : Int)
    (q : String) (status : Nat) (b : ResponseBody) (entry : ResultEntry)
    (rest : List ResultEntry) (vs : List String) (s : String) (x : PyFloat)
    (hresp : server (mkRequest url q t) = .response status (some b))
    (hok : raiseForStatusFails status = false)
    (hres : b.effectiveResult = entry :: rest)
    (hval : entry.value = some vs)
    (hs : vs[1]? = some s)
    (hx : pyFloat s = some x) (_hz : x.isZero = true) :
    queryEntry server url t q = .ok (sanitize_query q, .num x) ∧
    ∀ k, queryEntry server url t q ≠ .ok (k, .msg NO_DATA_MSG) := by
  have h := queryEntry_found server url t q status b entry rest vs s x
    hresp hok hres hval hs hx
  refine ⟨h, fun k hcontra => ?_⟩
  have hc := h.symm.trans hcontra
  simp at hc

theorem zero_sample_is_found_witness :
    srvZero (mkRequest "http://prom:9090" "node:cpu.rate" 1700) =
      .response 200 (some ⟨true, true, [⟨some ["1700", "0"]⟩]⟩) ∧
    pyFloat "0" = some ⟨0, 0⟩ ∧
    PyFloat.isZero ⟨0, 0⟩ = true ∧
    (queryEntry srvZero "http://prom:9090" 1700 "node:cpu.rate" =
      .ok (sanitize_query "node:cpu.rate", .num ⟨0, 0⟩) ∧
    ∀ k, queryEntry srvZero "http://prom:9090" 1700 "node:cpu.rate" ≠
      .ok (k, .msg NO_DATA_MSG)) :=
  ⟨rfl, by decide, by decide,
    zero_sample_is_found srvZero "http://prom:9090" 1700 "node:cpu.rate" 200
      ⟨true, true, [⟨some ["1700", "0"]⟩]⟩ ⟨some ["1700", "0"]⟩ [] ["1700", "0"] "0" ⟨0, 0⟩
      rfl (by decide) (by decide) rfl (by decide) (by decide) (by decide)⟩

/-- C10: every exception raised while processing a query — transport errors,
but also a `KeyError`/`IndexError` from a result entry lacking the `value`
pair and a `ValueError` from `float()` on a non-numeric sample — is caught by
the per-query broad `except Exception` handler in `main` and converted into
the single failure report `fail_json(msg=str(e))`.  The embedding is a total
function into `exit_json`/`fail_json` outcomes, so no exception escapes the
loop. -/
theorem every_exception_reports_fail_json (server : Server) (url : String) (t : Int)
    (pre : List String) (q : String) (post : List String) (e : PyError)
    (hpre : ∀ p ∈ pre, ∃ en, queryEntry server url t p = .ok en)
    (herr : queryEntry server url t q = .error e) :
    (main server url t (pre ++ q :: post)).2 = .failJson e.message :=
  runQueries_first_error server url t pre q post e hpre herr []

theorem every_exception_reports_fail_json_witness :
    (∀ p ∈ (["up"] : List String), ∃ en,
      queryEntry srvMixed "http://prom:9090" 1700 p = .ok en) ∧
    queryEntry srvMixed "http://prom:9090" 1700 "bad.metric" =
      .error (.valueError "not-a-number") ∧
    (main srvMixed "http://prom:9090" 1700 (["up"] ++ "bad.metric" :: ["up"])).2 =
      .failJson (PyError.message (.valueError "not-a-number")) := by
  have hpre : ∀ p ∈ (["up"] : List String), ∃ en,
      queryEntry srvMixed "http://prom:9090" 1700 p = .ok en := by
    intro p hp
    rw [List.mem_singleton] at hp
    subst hp
    exact ⟨("up", .num ⟨1, 0⟩), rfl⟩
  exact ⟨hpre, rfl,
    every_exception_reports_fail_json srvMixed "http://prom:9090" 1700 ["up"] "bad.metric"
      ["up"] (.valueError "not-a-number") hpre rfl⟩

end PromQuery
